import Mathlib

/-!
Verification of the `nocontext` generator.

The repository contains two variants of the generator in `src/main.go`:

* a buffer-based single-file variant (functions `getAST`, `getReceiver`,
  `getType`, `getNames`, `getSignature`, the `GenSrc` type and its `main`),
  which renders signatures by hand into a `bytes.Buffer` and runs
  `imports.Process` once over the buffer at the end; and
* a directory-capable variant (functions `parseFile`, `run` and its `main`),
  which mutates the parsed `*ast.FuncDecl` in place and prints it with
  `go/printer`.

This file embeds both variants shallowly: the `go/ast` fragment the tool
touches becomes the inductive types below, and each Go function of interest
becomes a Lean definition with the same name where possible.  Machine strings
are Lean `String`s (the inputs of interest are ASCII, where Go's byte-wise
operations and Lean's character-wise operations agree).
-/

namespace Nocontext

set_option maxRecDepth 8192

/-- Go `strings.HasSuffix s suf` : `len(s) >= len(suf) && s[len(s)-len(suf):] == suf`,
modelled on the character list of the string. -/
def hasSuffix (s suf : String) : Bool :=
  suf.data.isSuffixOf s.data

/-- Go `strings.TrimSuffix s suf` : drop the final `len(suf)` characters when the
suffix is present, otherwise return `s` unchanged. -/
def trimSuffix (s suf : String) : String :=
  if hasSuffix s suf then String.mk (s.data.take (s.data.length - suf.data.length)) else s

/-- Go `ast.IsExported name` (`token.IsExported`): the first character is an upper-case
letter.  (Go consults full Unicode; the declarations at issue are ASCII, where
`Char.isUpper` agrees.)  The buffer variant's inline check
`'A' <= name[0] && name[0] <= 'Z'` (src/main.go line 125) is the same test on ASCII. -/
def isExported (s : String) : Bool :=
  match s.data with
  | [] => false
  | c :: _ => c.isUpper

mutual

/-- The fragment of `go/ast` expressions the tool manipulates: identifiers,
selector expressions `X.Sel`, pointer types `*X`, slice types `[]Elt`,
map types `map[Key]Value`, channel types `chan Elt` (a shape the buffer
variant's `getType` does not support), and call expressions `Fun(Args...)`. -/
inductive Expr where
  | ident (name : String)
  | selector (x : Expr) (sel : String)
  | star (x : Expr)
  | arrayType (elt : Expr)
  | mapType (key value : Expr)
  | chanType (elt : Expr)
  | call (fn : Expr) (args : ExprList)

/-- Argument lists of call expressions (an inlined list so both inductives can
be traversed by structural recursion). -/
inductive ExprList where
  | nil
  | cons (head : Expr) (tail : ExprList)

end

/-- Build an `ExprList` from an ordinary list. -/
def ExprList.ofList : List Expr → ExprList
  | [] => ExprList.nil
  | e :: es => ExprList.cons e (ExprList.ofList es)

/-- Flatten an `ExprList` back to an ordinary list. -/
def ExprList.toList : ExprList → List Expr
  | ExprList.nil => []
  | ExprList.cons e es => e :: ExprList.toList es

/-- The statements the tool emits or carries: `return e0, e1, ...`, a standalone
expression statement, and an opaque original-body statement (`raw`), which the
tool never inspects. -/
inductive Stmt where
  | ret (results : List Expr)
  | exprStmt (x : Expr)
  | raw (text : String)

/-- One entry of a `go/ast` field list: zero or more names sharing one type. -/
structure Field where
  names : List String
  typ : Expr

/-- The `*ast.FuncDecl` fragment used by the tool: name, optional receiver field
list (`Recv`, `none` for free functions), parameter field list (`Type.Params.List`),
optional result field list (`Type.Results`, `none` when absent), and body
statement list (`Body.List`). -/
structure FuncDecl where
  name : String
  recv : Option (List Field)
  params : List Field
  results : Option (List Field)
  body : List Stmt

/-- A top-level declaration: a function declaration or any other declaration
(import/type/var groups), which the tool's `decl.(*ast.FuncDecl)` type
assertion skips. -/
inductive Decl where
  | func (f : FuncDecl)
  | nonFunc

mutual

/-- Rendering by `go/printer` of the expression fragment (used by the `run`
variant via `printer.Fprint`). -/
def printExpr : Expr → String
  | Expr.ident n => n
  | Expr.selector x sel => printExpr x ++ "." ++ sel
  | Expr.star x => "*" ++ printExpr x
  | Expr.arrayType elt => "[]" ++ printExpr elt
  | Expr.mapType k v => "map[" ++ printExpr k ++ "]" ++ printExpr v
  | Expr.chanType elt => "chan " ++ printExpr elt
  | Expr.call f args => printExpr f ++ "(" ++ printExprArgs args ++ ")"

/-- Rendering by `go/printer` of a call's argument list, comma separated. -/
def printExprArgs : ExprList → String
  | ExprList.nil => ""
  | ExprList.cons e ExprList.nil => printExpr e
  | ExprList.cons e es => printExpr e ++ ", " ++ printExprArgs es

end

/-- Rendering by `go/printer` of one field-list entry: the names, comma separated,
a blank, then the type; an entry with no names is just the type. -/
def printField (f : Field) : String :=
  match f.names with
  | [] => printExpr f.typ
  | _ => String.intercalate ", " f.names ++ " " ++ printExpr f.typ

/-- Rendering by `go/printer` of a field list, comma separated. -/
def printFields (fs : List Field) : String :=
  String.intercalate ", " (fs.map printField)

/-- Rendering by `go/printer` of a result list: nothing when absent or empty, the
bare type for a single unnamed result, a parenthesized list otherwise. -/
def printResults : Option (List Field) → String
  | none => ""
  | some [] => ""
  | some [f] =>
    match f.names with
    | [] => " " ++ printExpr f.typ
    | _ => " (" ++ printField f ++ ")"
  | some fs => " (" ++ printFields fs ++ ")"

/-- Rendering by `go/printer` of a statement (one line of a block body). -/
def printStmt : Stmt → String
  | Stmt.ret [] => "return"
  | Stmt.ret es => "return " ++ String.intercalate ", " (es.map printExpr)
  | Stmt.exprStmt e => printExpr e
  | Stmt.raw s => s

/-- Rendering by `go/printer` of a receiver field list, with its trailing blank. -/
def printRecv : Option (List Field) → String
  | none => ""
  | some fs => "(" ++ printFields fs ++ ") "

/-- Rendering by `go/printer` of a whole function declaration, one tab-indented
statement per body line (the shape `printer.Fprint` produces for the
declarations the tool builds). -/
def printDecl (d : FuncDecl) : String :=
  "func " ++ printRecv d.recv ++ d.name ++ "(" ++ printFields d.params ++ ")" ++
    printResults d.results ++ " \x7b\n" ++
    String.join (d.body.map (fun s => "\t" ++ printStmt s ++ "\n")) ++ "\x7d"

/-- The marker suffix both variants test for (src/main.go lines 128 and 241). -/
def ctxSuffix : String := "WithContext"

/-- The synthesized default-context expression `context.Background()`:
`&ast.CallExpr\x7bFun: &ast.SelectorExpr\x7bX: context, Sel: Background\x7d, Args: []\x7d`
(src/main.go lines 259-262). -/
def ctxBackground : Expr :=
  Expr.call (Expr.selector (Expr.ident "context") "Background") ExprList.nil

/-- Buffer variant, `getType` (src/main.go lines 43-59): the hand-written type
stringifier.  Note the selector case is `Sprintf("%s.%s", t.Sel.Name, getType(t.X))`
(the selector name comes first), the map case omits the `map` keyword, and the
default case prints a debug line and returns the empty string. -/
def getType : Expr → String
  | Expr.selector x sel => sel ++ "." ++ getType x
  | Expr.star x => "*" ++ getType x
  | Expr.ident n => n
  | Expr.arrayType elt => "[]" ++ getType elt
  | Expr.mapType k v => "[" ++ getType k ++ "]" ++ getType v
  | _ => ""

/-- Buffer variant, `getNames` (src/main.go lines 61-69): append every name of
every field, in declaration order, into one flat list.  The `run` variant's
argument-forwarding loop (src/main.go lines 266-270) performs the same
iteration when it appends `param.Names` entries to `callExpr.Args`. -/
def getNames (fields : List Field) : List String :=
  fields.foldl (fun names field => names ++ field.names) []

/-- Buffer variant, `NewGenSrc` (src/main.go lines 91-96): `make([]byte, size)`
allocates `size` zero bytes and `bytes.NewBuffer(buf)` takes them as the
buffer's initial CONTENTS, so the fresh buffer already holds `size` NUL bytes.
Bytes are modelled as naturals. -/
def newGenSrcBody (size : Nat) : List Nat :=
  List.replicate size 0

/-- Writes through `GenSrc.Writer()` append to the buffer; `writeAll` plays a
whole run's sequence of writes into a buffer state. -/
def writeAll (body : List Nat) (ws : List (List Nat)) : List Nat :=
  ws.foldl (fun b w => b ++ w) body

/-- The byte sequence `GenSrc.Generate` (src/main.go lines 102-104) hands to
`imports.Process`: the buffer contents after all writes of the run. -/
def generateInput (size : Nat) (ws : List (List Nat)) : List Nat :=
  writeAll (newGenSrcBody size) ws

/-- Parsing outcome of one input file, as the orchestration sees it. -/
inductive ParseResult where
  | ok (decls : List Decl)
  | err (msg : String)

/-- What the buffer variant's `main` does with the parse outcome
(src/main.go lines 111-114): `getAST` failure reaches `log.Fatal`, which exits
with status 1; success proceeds to the generation loop over the declarations. -/
inductive MainBufStep where
  | fatalExit (code : Nat)
  | proceed (decls : List Decl)

/-- Buffer variant `main`, parse stage (src/main.go lines 111-114). -/
def mainBufParseStep : ParseResult → MainBufStep
  | ParseResult.err _ => MainBufStep.fatalExit 1
  | ParseResult.ok ds => MainBufStep.proceed ds

/-- Outcome of the `run` variant's per-declaration processing: skipped by the
selector, crashed by an out-of-range index, or generated (the final state of
the mutated declaration node, which is also what gets printed). -/
inductive DeclResult where
  | skipped
  | panicked
  | generated (d : FuncDecl)

/-- The receiver-variable lookup of `run` (src/main.go lines 250-251):
`fdecl.Recv != nil` selects between a selector call target and a bare
identifier; a present receiver is read as `fdecl.Recv.List[0].Names[0].Name`,
which panics (`none` here) when the receiver field list or its name list is
empty.  `some rv` returns the optional receiver variable name. -/
def recvVarName : Option (List Field) → Option (Option String)
  | none => some none
  | some [] => none
  | some (f :: _) =>
    match f.names with
    | [] => none
    | n :: _ => some (some n)

/-- Total variant of the receiver-variable lookup, used to state theorems. -/
def recvVarOf : Option (List Field) → Option String
  | some (f :: _) => f.names.head?
  | _ => none

/-- The call target of the forwarding call (src/main.go lines 249-254):
`recv.Name` as a selector when a receiver exists, the bare identifier
otherwise; `origName` is the name saved before the suffix was trimmed. -/
def callTarget : Option String → String → Expr
  | some r, origName => Expr.selector (Expr.ident r) origName
  | none, origName => Expr.ident origName

/-- The forwarding call expression (src/main.go lines 256-270): the call
target applied to `context.Background()` followed by every name of every
retained parameter group, in declared order. -/
def forwardCall (rv : Option String) (origName : String) (ps : List Field) : Expr :=
  Expr.call (callTarget rv origName)
    (ExprList.ofList (ctxBackground :: (getNames ps).map Expr.ident))

/-- The replacement body (src/main.go lines 272-284): a single return statement
wrapping the call when `fdecl.Type.Results != nil`, a single expression
statement otherwise. -/
def newBody : Option (List Field) → Expr → List Stmt
  | some _, c => [Stmt.ret [c]]
  | none, c => [Stmt.exprStmt c]

/-- One iteration of the `run` variant's declaration loop
(src/main.go lines 234-287) on a function declaration: skip unexported names
and names without the suffix; then trim the name, slice off the first
parameter group (`fdecl.Type.Params.List[1:]` — a panic when the parameter
list is empty, since a slice of length 0 cannot be sliced from index 1),
resolve the receiver variable (a panic when a receiver field list has no
entry or no name), and replace the body with the forwarding call.  The
`generated` payload is the final state of the `fdecl` node: `run` assigns
`fdecl.Name.Name`, `fdecl.Type.Params.List` and `fdecl.Body.List` in place
and then prints that same node. -/
def processDecl (fdecl : FuncDecl) : DeclResult :=
  if isExported fdecl.name then
    if hasSuffix fdecl.name ctxSuffix then
      match fdecl.params, recvVarName fdecl.recv with
      | [], _ => DeclResult.panicked
      | _ :: _, none => DeclResult.panicked
      | _ :: rest, some rv =>
        DeclResult.generated
          { fdecl with
            name := trimSuffix fdecl.name ctxSuffix
            params := rest
            body := newBody fdecl.results (forwardCall rv fdecl.name rest) }
    else DeclResult.skipped
  else DeclResult.skipped

/-- Extract the single call expression of a synthesized body, through either
the return-statement or the expression-statement shape. -/
def bodyCall : List Stmt → Option Expr
  | [Stmt.ret [c]] => some c
  | [Stmt.exprStmt c] => some c
  | _ => none

/-- Does a body consist of exactly one standalone expression statement? -/
def isExprStmtBody : List Stmt → Bool
  | [Stmt.exprStmt _] => true
  | _ => false

/-- The declaration loop of `run` over one parsed file (src/main.go
lines 233-287): returns the text written for the file and whether a panic
interrupted the loop (text written before the panic is kept, it was already
flushed to the writer). -/
def emitDecls : List Decl → String × Bool
  | [] => ("", false)
  | Decl.nonFunc :: rest => emitDecls rest
  | Decl.func f :: rest =>
    match processDecl f with
    | DeclResult.skipped => emitDecls rest
    | DeclResult.panicked => ("", true)
    | DeclResult.generated d =>
      let r := emitDecls rest
      (printDecl d ++ "\n" ++ r.1, r.2)

/-- The declarations the `run` variant generates (and prints) for one file. -/
def generatedOf : List Decl → List FuncDecl
  | [] => []
  | Decl.nonFunc :: rest => generatedOf rest
  | Decl.func f :: rest =>
    match processDecl f with
    | DeclResult.generated d => d :: generatedOf rest
    | _ => generatedOf rest

/-- The file loop of `run` (src/main.go lines 224-288): a parse failure is
logged (`log.Print("failed to parse:", err)`) and the file is skipped —
in every mode, the file list being the single `-f` file or the directory
listing; a panic stops the run.  Returns (emitted text, log lines, panicked). -/
def runFiles : List ParseResult → String × List String × Bool
  | [] => ("", [], false)
  | ParseResult.err m :: rest =>
    let r := runFiles rest
    (r.1, ("failed to parse:" ++ m) :: r.2.1, r.2.2)
  | ParseResult.ok ds :: rest =>
    let e := emitDecls ds
    if e.2 then (e.1, [], true)
    else
      let r := runFiles rest
      (e.1 ++ r.1, r.2.1, r.2.2)

/-- Process exit status of the `run` variant's `main` over the file loop:
`run` returns a nil error after the loop (parse failures only `log.Print` and
`continue`), so `main` exits 0 unless a panic escaped (Go exits 2 on an
unrecovered panic). -/
def runExit (files : List ParseResult) : Nat :=
  if (runFiles files).2.2 then 2 else 0

/-- The usual first parameter group `ctx context.Context`. -/
def ctxField : Field :=
  { names := ["ctx"], typ := Expr.selector (Expr.ident "context") "Context" }

/-- A single unnamed `error` result. -/
def errorField : Field :=
  { names := [], typ := Expr.ident "error" }

/-- The spec's free-function scenario: `func PingWithContext(ctx context.Context) error`. -/
def pingDecl : FuncDecl :=
  { name := "PingWithContext"
    recv := none
    params := [ctxField]
    results := some [errorField]
    body := [Stmt.raw "return ping(ctx)"] }

/-- The declaration `run` generates (and leaves behind in the AST node) for
`pingDecl`: `func Ping() error \x7b return PingWithContext(context.Background()) \x7d`. -/
def pingOut : FuncDecl :=
  { name := "Ping"
    recv := none
    params := []
    results := some [errorField]
    body := [Stmt.ret [Expr.call (Expr.ident "PingWithContext")
      (ExprList.cons ctxBackground ExprList.nil)]] }

/-- Concatenate printed declarations, each followed by the `fmt.Fprintln`
newline — the shape of the `run` variant's whole per-file output. -/
def renderAll : List FuncDecl → String
  | [] => ""
  | d :: ds => printDecl d ++ "\n" ++ renderAll ds

/-- The declaration `func AddWithContext(ctx context.Context, a, b int) int`,
with a multi-name parameter group. -/
def addDecl : FuncDecl :=
  { name := "AddWithContext"
    recv := none
    params := [ctxField, { names := ["a", "b"], typ := Expr.ident "int" }]
    results := some [{ names := [], typ := Expr.ident "int" }]
    body := [Stmt.raw "return add(ctx, a, b)"] }

/-- The declaration generated for `addDecl`: both names of the grouped
parameter are forwarded individually. -/
def addOut : FuncDecl :=
  { name := "Add"
    recv := none
    params := [{ names := ["a", "b"], typ := Expr.ident "int" }]
    results := some [{ names := [], typ := Expr.ident "int" }]
    body := [Stmt.ret [Expr.call (Expr.ident "AddWithContext")
      (ExprList.cons ctxBackground
        (ExprList.cons (Expr.ident "a") (ExprList.cons (Expr.ident "b") ExprList.nil)))]] }

/-- The spec's method scenario:
`func (c *Client) FetchWithContext(ctx context.Context, id string) (*Item, error)`. -/
def clientDecl : FuncDecl :=
  { name := "FetchWithContext"
    recv := some [{ names := ["c"], typ := Expr.star (Expr.ident "Client") }]
    params := [ctxField, { names := ["id"], typ := Expr.ident "string" }]
    results := some [{ names := [], typ := Expr.star (Expr.ident "Item") }, errorField]
    body := [Stmt.raw "return c.fetch(ctx, id)"] }

/-- The declaration generated for `clientDecl`: receiver copied, call through
the receiver variable. -/
def clientOut : FuncDecl :=
  { name := "Fetch"
    recv := some [{ names := ["c"], typ := Expr.star (Expr.ident "Client") }]
    params := [{ names := ["id"], typ := Expr.ident "string" }]
    results := some [{ names := [], typ := Expr.star (Expr.ident "Item") }, errorField]
    body := [Stmt.ret [Expr.call (Expr.selector (Expr.ident "c") "FetchWithContext")
      (ExprList.cons ctxBackground (ExprList.cons (Expr.ident "id") ExprList.nil))]] }

/-- The declaration `func SaveWithContext(ctx context.Context)`, with no result
list at all. -/
def saveDecl : FuncDecl :=
  { name := "SaveWithContext"
    recv := none
    params := [ctxField]
    results := none
    body := [Stmt.raw "save(ctx)"] }

/-- The declaration generated for `saveDecl`: a standalone expression
statement, since the parsed declaration has no result list. -/
def saveOut : FuncDecl :=
  { name := "Save"
    recv := none
    params := []
    results := none
    body := [Stmt.exprStmt (Expr.call (Expr.ident "SaveWithContext")
      (ExprList.cons ctxBackground ExprList.nil))] }

/-- The declaration `func PokeWithContext(ctx context.Context) ()`, whose result
list is present but empty — the legal Go spelling with empty result parentheses. -/
def pokeDecl : FuncDecl :=
  { name := "PokeWithContext"
    recv := none
    params := [ctxField]
    results := some []
    body := [Stmt.raw "poke(ctx)"] }

/-- What `run` leaves for `pokeDecl`: a RETURN statement, because the code
tests `fdecl.Type.Results != nil`, not emptiness. -/
def pokeOut : FuncDecl :=
  { name := "Poke"
    recv := none
    params := []
    results := some []
    body := [Stmt.ret [Expr.call (Expr.ident "PokeWithContext")
      (ExprList.cons ctxBackground ExprList.nil)]] }

/-- An unexported candidate: `func fetchWithContext(ctx context.Context)`. -/
def fetchLowerDecl : FuncDecl :=
  { name := "fetchWithContext", recv := none, params := [ctxField],
    results := none, body := [Stmt.raw "f(ctx)"] }

/-- An exported name without the suffix: `func Fetch(ctx context.Context)`. -/
def fetchPlainDecl : FuncDecl :=
  { name := "Fetch", recv := none, params := [ctxField],
    results := none, body := [Stmt.raw "f(ctx)"] }

/-- An exported, suffixed, zero-parameter function: `func FetchWithContext()`. -/
def fetchZeroDecl : FuncDecl :=
  { name := "FetchWithContext", recv := none, params := [],
    results := none, body := [Stmt.raw "f()"] }

/-- The full `run` output text for a file containing only `pingDecl`. -/
def pingText : String :=
  "func Ping() error \x7b\n\treturn PingWithContext(context.Background())\n\x7d\n"

example : processDecl pingDecl = DeclResult.generated pingOut := rfl

example : printDecl pingOut =
    "func Ping() error \x7b\n\treturn PingWithContext(context.Background())\n\x7d" := rfl

example : processDecl addDecl = DeclResult.generated addOut := rfl

example : processDecl clientDecl = DeclResult.generated clientOut := rfl

example : processDecl saveDecl = DeclResult.generated saveOut := rfl

example : processDecl pokeDecl = DeclResult.generated pokeOut := rfl

example : runFiles [ParseResult.ok [Decl.func pingDecl]] = (pingText, [], false) := rfl

/-- When the receiver lookup of `run` succeeds, it returns the value of the
total lookup `recvVarOf`. -/
theorem recvVarName_some (r : Option (List Field)) (rv : Option String)
    (h : recvVarName r = some rv) : recvVarOf r = rv := by
  cases r with
  | none =>
    simp only [recvVarName, Option.some.injEq] at h
    simp [recvVarOf, h]
  | some l =>
    cases l with
    | nil => simp [recvVarName] at h
    | cons f fs =>
      cases hn : f.names with
      | nil => simp [recvVarName, hn] at h
      | cons n ns =>
        simp only [recvVarName, hn, Option.some.injEq] at h
        simp [recvVarOf, hn, h]

/-- Inversion of `processDecl`: a generated declaration comes from a non-empty
parameter list, and its final state is the parsed node with the suffix-trimmed
name, the parameter tail, and the forwarding body. -/
theorem processDecl_inv (d d' : FuncDecl) (h : processDecl d = DeclResult.generated d') :
    d.params ≠ [] ∧
    d' = { d with
      name := trimSuffix d.name ctxSuffix
      params := d.params.tail
      body := newBody d.results (forwardCall (recvVarOf d.recv) d.name d.params.tail) } := by
  unfold processDecl at h
  split at h
  · split at h
    · split at h
      · exact DeclResult.noConfusion h
      · exact DeclResult.noConfusion h
      · rename_i p rest rv hp hrv
        have hrv' : recvVarOf d.recv = rv := recvVarName_some d.recv rv hrv
        have htail : d.params.tail = rest := by rw [hp]; rfl
        injection h with h
        refine ⟨by rw [hp]; exact List.cons_ne_nil p rest, ?_⟩
        rw [← h, hrv', htail]
    · exact DeclResult.noConfusion h
  · exact DeclResult.noConfusion h

/-- Both body shapes built by `run` expose the forwarding call to `bodyCall`. -/
theorem bodyCall_newBody (r : Option (List Field)) (c : Expr) :
    bodyCall (newBody r c) = some c := by
  cases r <;> rfl

/-- C1: for every declaration the generator produces output for, the
synthesized body's call expression applies the call target to the synthesized
default-context expression `context.Background()` followed by the retained
parameter names in declared order, every name of a multi-name group forwarded
individually; hence the argument list has arity (number of retained parameter
names) + 1. -/
theorem call_args_are_context_then_names (d d' : FuncDecl)
    (h : processDecl d = DeclResult.generated d') :
    bodyCall d'.body = some (Expr.call (callTarget (recvVarOf d.recv) d.name)
      (ExprList.ofList (ctxBackground :: (getNames d'.params).map Expr.ident))) ∧
    (ctxBackground :: (getNames d'.params).map Expr.ident).length
      = (getNames d'.params).length + 1 := by
  obtain ⟨hne, hd⟩ := processDecl_inv d d' h
  subst hd
  exact ⟨bodyCall_newBody _ _, by simp⟩

/-- Witness for C1 at `addDecl`, whose grouped parameter `a, b int` is
forwarded as two separate arguments. -/
theorem call_args_are_context_then_names_witness :
    processDecl addDecl = DeclResult.generated addOut ∧
    (bodyCall addOut.body = some (Expr.call (callTarget (recvVarOf addDecl.recv) addDecl.name)
      (ExprList.ofList (ctxBackground :: (getNames addOut.params).map Expr.ident))) ∧
    (ctxBackground :: (getNames addOut.params).map Expr.ident).length
      = (getNames addOut.params).length + 1) :=
  ⟨rfl, call_args_are_context_then_names addDecl addOut rfl⟩

/-- C2 counterexample: `func PokeWithContext(ctx context.Context) ()` has an
EMPTY (but syntactically present) result list, yet the generator wraps the
call in a return statement, because src/main.go line 272 tests
`fdecl.Type.Results != nil` rather than result-list emptiness. -/
theorem empty_results_still_returns :
    pokeDecl.results = some [] ∧
    processDecl pokeDecl = DeclResult.generated pokeOut ∧
    isExprStmtBody pokeOut.body = false :=
  ⟨rfl, rfl, rfl⟩

/-- C2 amended: the body is a single return statement wrapping the forwarding
call exactly when the original's result list is PRESENT (non-nil, even if
empty), and a single standalone expression statement with the same call
exactly when the result list is absent. -/
theorem return_iff_results_present (d d' : FuncDecl)
    (h : processDecl d = DeclResult.generated d') :
    (d.results ≠ none →
      d'.body = [Stmt.ret [forwardCall (recvVarOf d.recv) d.name d.params.tail]]) ∧
    (d.results = none →
      d'.body = [Stmt.exprStmt (forwardCall (recvVarOf d.recv) d.name d.params.tail)]) := by
  obtain ⟨hne, hd⟩ := processDecl_inv d d' h
  subst hd
  cases hr : d.results <;> simp [newBody, hr]

/-- Witness for the amended C2 at the method declaration `clientDecl` (present
result list, so a return statement) and the free function `saveDecl` (absent
result list, so an expression statement). -/
theorem return_iff_results_present_witness :
    (processDecl clientDecl = DeclResult.generated clientOut ∧
      clientDecl.results ≠ none ∧
      clientOut.body = [Stmt.ret [forwardCall (recvVarOf clientDecl.recv)
        clientDecl.name clientDecl.params.tail]]) ∧
    (processDecl saveDecl = DeclResult.generated saveOut ∧
      saveDecl.results = none ∧
      saveOut.body = [Stmt.exprStmt (forwardCall (recvVarOf saveDecl.recv)
        saveDecl.name saveDecl.params.tail)]) :=
  ⟨⟨rfl, by simp [clientDecl],
      (return_iff_results_present clientDecl clientOut rfl).1 (by simp [clientDecl])⟩,
    ⟨rfl, rfl, (return_iff_results_present saveDecl saveOut rfl).2 rfl⟩⟩

/-- C3: unexported names and names without the `WithContext` suffix are
skipped silently, but an exported, suffixed, ZERO-parameter declaration is not
"silently excluded" — `fdecl.Type.Params.List[1:]` (src/main.go line 247)
slices an empty slice from index 1, a runtime panic, so the run crashes with a
non-zero status instead of reporting no error. -/
theorem zero_param_selector_panics :
    processDecl fetchLowerDecl = DeclResult.skipped ∧
    processDecl fetchPlainDecl = DeclResult.skipped ∧
    processDecl fetchZeroDecl = DeclResult.panicked ∧
    runFiles [ParseResult.ok [Decl.func fetchZeroDecl]] = ("", [], true) ∧
    runExit [ParseResult.ok [Decl.func fetchZeroDecl]] = 2 :=
  ⟨rfl, rfl, rfl, rfl, rfl⟩

/-- C4: the synthesized declaration's parameter list is positionally the
original's parameters with the first group removed (one group shorter), and
the result list and receiver are carried over verbatim. -/
theorem params_tail_results_verbatim (d d' : FuncDecl)
    (h : processDecl d = DeclResult.generated d') :
    d'.params = d.params.tail ∧
    d'.params.length = d.params.length - 1 ∧
    d'.results = d.results ∧
    d'.recv = d.recv := by
  obtain ⟨hne, hd⟩ := processDecl_inv d d' h
  subst hd
  exact ⟨rfl, List.length_tail _, rfl, rfl⟩

/-- Witness for C4 at the method declaration `clientDecl`. -/
theorem params_tail_results_verbatim_witness :
    processDecl clientDecl = DeclResult.generated clientOut ∧
    (clientOut.params = clientDecl.params.tail ∧
      clientOut.params.length = clientDecl.params.length - 1 ∧
      clientOut.results = clientDecl.results ∧
      clientOut.recv = clientDecl.recv) :=
  ⟨rfl, params_tail_results_verbatim clientDecl clientOut rfl⟩

/-- C5 counterexample: `run` assigns `fdecl.Name.Name`, `fdecl.Type.Params.List`
and `fdecl.Body.List` in place (src/main.go lines 246-247 and 273-283), so
after generating from `saveDecl` the source node's state is `saveOut`, whose
name, parameter list and body all differ from the parsed declaration — the
original is NOT left unchanged. -/
theorem synthesis_mutates_source_node :
    processDecl saveDecl = DeclResult.generated saveOut ∧
    saveOut.name ≠ saveDecl.name ∧
    saveOut.params.length ≠ saveDecl.params.length ∧
    isExprStmtBody saveOut.body ≠ isExprStmtBody saveDecl.body :=
  ⟨rfl, by decide, by decide, by decide⟩

/-- C5 amended: synthesizing a forwarder always mutates the parsed declaration
node in place — its final state has one parameter group fewer than the parsed
state and therefore never equals it; the node is visited exactly once, so the
printed output is exactly this mutated node. -/
theorem synthesis_mutation_characterized (d d' : FuncDecl)
    (h : processDecl d = DeclResult.generated d') :
    d'.params.length + 1 = d.params.length ∧ d' ≠ d := by
  obtain ⟨hne, hd⟩ := processDecl_inv d d' h
  have hlen : d'.params.length + 1 = d.params.length := by
    rw [hd]
    cases hp : d.params with
    | nil => exact absurd hp hne
    | cons p rest => simp [hp]
  refine ⟨hlen, fun he => ?_⟩
  rw [he] at hlen
  omega

/-- Witness for the amended C5 at `saveDecl`. -/
theorem synthesis_mutation_characterized_witness :
    processDecl saveDecl = DeclResult.generated saveOut ∧
    (saveOut.params.length + 1 = saveDecl.params.length ∧ saveOut ≠ saveDecl) :=
  ⟨rfl, synthesis_mutation_characterized saveDecl saveOut rfl⟩

/-- C6: the buffer variant's `getType` does not round-trip source text — a
package-qualified name `context.Context` is rendered with its components
swapped as `Context.context`, a map type loses its `map` keyword, and an
unsupported shape (here `chan int`) is rendered as the empty string while the
declaration is still emitted; `go/printer`'s rendering (`printExpr`) shows
the source text these shapes should produce. -/
theorem getType_does_not_roundtrip :
    getType (Expr.selector (Expr.ident "context") "Context") = "Context.context" ∧
    printExpr (Expr.selector (Expr.ident "context") "Context") = "context.Context" ∧
    getType (Expr.mapType (Expr.ident "string") (Expr.ident "int")) = "[string]int" ∧
    printExpr (Expr.mapType (Expr.ident "string") (Expr.ident "int")) = "map[string]int" ∧
    getType (Expr.chanType (Expr.ident "int")) = "" :=
  ⟨rfl, rfl, rfl, rfl, rfl⟩

/-- C7 counterexample: in the directory-capable variant, single-file mode is
the file loop over a one-element list; a parse failure there is logged and
skipped exactly as in batch mode, `run` still returns a nil error, and the
process exits with status ZERO, not non-zero. -/
theorem single_file_parse_failure_exits_zero :
    runExit [ParseResult.err "expected declaration, found soup"] = 0 ∧
    runFiles [ParseResult.err "expected declaration, found soup"] =
      ("", ["failed to parse:expected declaration, found soup"], false) :=
  ⟨rfl, rfl⟩

/-- C7 amended: a parse failure is logged and the file skipped in BOTH modes
of the directory-capable variant — in particular a single-file run over one
malformed file exits with status zero; only the buffer-based single-file
variant treats a parse failure as fatal (`log.Fatal`, exit status 1). -/
theorem parse_failure_handling_by_variant :
    (∀ (m : String) (rest : List ParseResult),
      runFiles (ParseResult.err m :: rest) =
        ((runFiles rest).1, ("failed to parse:" ++ m) :: (runFiles rest).2.1,
          (runFiles rest).2.2)) ∧
    (∀ m : String, runExit [ParseResult.err m] = 0) ∧
    (∀ m : String, mainBufParseStep (ParseResult.err m) = MainBufStep.fatalExit 1) :=
  ⟨fun _ _ => rfl, fun _ => rfl, fun _ => rfl⟩

/-- C8: `func PingWithContext(ctx context.Context) error` yields
`func Ping() error \x7b return PingWithContext(context.Background()) \x7d`:
no receiver, a bare-identifier call target, and exactly one argument — the
default-context expression — with zero extra arguments. -/
theorem ping_scenario :
    processDecl pingDecl = DeclResult.generated pingOut ∧
    pingOut.recv = none ∧
    bodyCall pingOut.body = some (Expr.call (Expr.ident "PingWithContext")
      (ExprList.cons ctxBackground ExprList.nil)) ∧
    printDecl pingOut =
      "func Ping() error \x7b\n\treturn PingWithContext(context.Background())\n\x7d" :=
  ⟨rfl, rfl, rfl, rfl⟩

/-- C9 counterexample: the directory-capable variant's rendered output for a
file declaring `PingWithContext` references the `context` package (the
forwarded `context.Background()` call) but contains no import reference at
all — no import-resolution pass runs over its output, neither per declaration
nor at the end. -/
theorem output_lacks_required_import :
    runFiles [ParseResult.ok [Decl.func pingDecl]] = (pingText, [], false) ∧
    List.IsInfix "context.Background".toList pingText.toList ∧
    ¬ List.IsInfix "import".toList pingText.toList :=
  ⟨rfl, by decide, by decide⟩

/-- C9 amended: the directory-capable variant performs no import resolution at
all — a file's rendered output is exactly the concatenation of the printed
synthesized declarations, each followed by one newline, and nothing else. -/
theorem output_is_bare_declarations (ds : List Decl)
    (h : (emitDecls ds).2 = false) :
    (emitDecls ds).1 = renderAll (generatedOf ds) := by
  induction ds with
  | nil => rfl
  | cons hd tl ih =>
    cases hd with
    | nonFunc =>
      simp only [emitDecls, generatedOf] at h ⊢
      exact ih h
    | func f =>
      cases hp : processDecl f with
      | skipped =>
        simp only [emitDecls, generatedOf, hp] at h ⊢
        exact ih h
      | panicked =>
        simp [emitDecls, hp] at h
      | generated d =>
        simp only [emitDecls, generatedOf, hp, renderAll] at h ⊢
        rw [ih h]

/-- Witness for the amended C9 at the one-declaration `Ping` file. -/
theorem output_is_bare_declarations_witness :
    (emitDecls [Decl.func pingDecl]).2 = false ∧
    (emitDecls [Decl.func pingDecl]).1 = renderAll (generatedOf [Decl.func pingDecl]) :=
  ⟨rfl, output_is_bare_declarations [Decl.func pingDecl] rfl⟩

/-- Playing a write sequence into a `GenSrc` buffer state appends the writes'
concatenation after the initial contents. -/
theorem writeAll_eq (b : List Nat) (ws : List (List Nat)) :
    writeAll b ws = b ++ ws.flatten := by
  induction ws generalizing b with
  | nil => simp [writeAll]
  | cons w ws ih =>
    show writeAll (b ++ w) ws = _
    rw [ih]
    simp [List.flatten]

/-- C10: `NewGenSrc(2048)` seeds the output buffer with 2048 zero bytes
(`make([]byte, 2048)` becomes the buffer's initial contents), so whatever the
run writes, the byte sequence handed to `Generate`'s import-resolution step is
2048 NUL bytes followed by the written declaration text — never the
declaration text alone. -/
theorem generate_input_is_nul_prefixed (ws : List (List Nat)) :
    generateInput 2048 ws = List.replicate 2048 0 ++ ws.flatten ∧
    generateInput 2048 ws ≠ ws.flatten := by
  have h : generateInput 2048 ws = List.replicate 2048 0 ++ ws.flatten :=
    writeAll_eq (newGenSrcBody 2048) ws
  refine ⟨h, fun hcontra => ?_⟩
  rw [h] at hcontra
  have hlen := congrArg List.length hcontra
  rw [List.length_append, List.length_replicate] at hlen
  omega

end Nocontext
